import Mathlib

/-!
Verification of the secret retrieval gateway in `pkg/api/universal/secrets.go`:
store resolution (`secretsValidateRequest`), per-key access scoping
(`isSecretAllowed` over a per-store `SecretsScope`), the single-secret
gateway (`GetSecret`) and the bulk gateway (`GetBulkSecret`).

The Go code is embedded shallowly:
* Go maps are association lists (`List (String × _)`); a nil map is
  distinguished from an empty map with `Option` where the source tests
  nil-ness (`getResponse.Data != nil`).
* The resiliency runner is kept opaque, exactly as the source treats it:
  the combined runner + backend call is a function from the request to a
  pair (optional response pointer, optional error string).
* Log/audit emission is made explicit: every operation also returns the
  ordered list of `AuditEvent`s it emits, and the gateways record which
  backend fetches they perform (`fetchedKeys` / `bulkFetched`), so that
  "the backend is never invoked" is expressible.
-/

/-- Access level of a secrets scope: either Allow or Deny. -/
inductive Access where
  | allow
  | deny
deriving DecidableEq, Repr

/-- Decision reasons of the access scope evaluator, mutually exclusive. -/
inductive Reason where
  | deniedListMatch
  | allowedListMatch
  | notInAllowedList
  | defaultDeny
  | defaultAllow
  | noConfiguration
deriving DecidableEq, Repr

/-- Per-store scoping policy: default access plus explicit allow/deny key lists
(`config.SecretsScope` in Go). -/
structure SecretsScope where
  defaultAccess : Access
  allowedSecrets : List String
  deniedSecrets : List String
deriving DecidableEq, Repr

/-- Modelled from the spec: `config.SecretsScope.IsSecretAllowedWithReason`
lives in `pkg/config`, which is not part of the sources here (only its callers
and tests are). Section 4.1 of the spec fixes the precedence, first match
wins: key in `deniedSecrets` denies; a non-empty `allowedSecrets` list is
exhaustive; otherwise `defaultAccess` decides. The reasons follow the spec
enum; the unit tests confirm the same four branches by their log strings. -/
def SecretsScope.IsSecretAllowedWithReason (c : SecretsScope) (key : String) :
    Bool × Reason :=
  if c.deniedSecrets.contains key then
    (false, .deniedListMatch)
  else if !c.allowedSecrets.isEmpty then
    if c.allowedSecrets.contains key then
      (true, .allowedListMatch)
    else
      (false, .notInAllowedList)
  else
    match c.defaultAccess with
    | .deny => (false, .defaultDeny)
    | .allow => (true, .defaultAllow)

/-- Modelled from the spec: the §4.1 evaluator contract
`evaluate(scope | absent, key) -> AccessDecision`, rule 1 mapping an absent
configuration to allow with reason `NoConfiguration` and the remaining rules
delegated to the configured scope. -/
def evaluate (scope : Option SecretsScope) (key : String) : Bool × Reason :=
  match scope with
  | none => (true, .noConfiguration)
  | some c => c.IsSecretAllowedWithReason key

/-- Sub-key to value mapping of one composite secret (`map[string]string`). -/
abbrev SecretMap := List (String × String)

/-- Caller-supplied request metadata. -/
abbrev Metadata := List (String × String)

/-- Backend single-fetch result (`secretstores.GetSecretResponse`). -/
structure GoGetSecretResponse where
  data : SecretMap
deriving DecidableEq, Repr

/-- Backend bulk-fetch result (`secretstores.BulkGetSecretResponse`); its
`Data` map may be nil (`none`) or initialized (`some`), and the source
distinguishes the two (`getResponse.Data != nil`). -/
structure GoBulkGetSecretResponse where
  data : Option (List (String × SecretMap))
deriving DecidableEq, Repr

/-- A registered secret-store backend, seen through the resiliency runner:
each capability maps the request to the pair the runner hands back, an
optional response pointer and an optional terminal error. -/
structure SecretStore where
  getSecret : String → Metadata → Option GoGetSecretResponse × Option String
  bulkGetSecret : Metadata → Option GoBulkGetSecretResponse × Option String

/-- The errors of the `messages` package used by the secrets gateways. -/
inductive ApiError where
  | secretStoreNotConfigured
  | secretStoreNotFound (storeName : String)
  | permissionDenied (key storeName : String)
  | secretGet (key storeName msg : String)
  | bulkSecretGet (storeName msg : String)
deriving DecidableEq, Repr

/-- The structured log/audit events the secrets gateways emit, in source
order. No constructor can carry a secret value: only store names, keys,
reasons, scope configuration and error messages appear. -/
inductive AuditEvent where
  | secretAccessDenied (key storeName : String) (reason : Reason)
      (defaultAccess : Access) (allowedSecrets deniedSecrets : List String)
  | secretAccessDeniedNoConfig (key storeName : String)
  | noScopingConfigDebug (storeName key : String)
  | bulkSomeDenied (storeName : String) (defaultAccess : Access)
      (deniedWithReasons : List (String × Reason))
  | bulkSomeDeniedNoConfig (storeName : String) (deniedKeys : List String)
  | debugError (e : ApiError)
deriving DecidableEq, Repr

/-- The component store: registered secret stores and registered secrets
configurations, both keyed by store name (`compstore.ComponentStore`). -/
structure CompStore where
  secretStores : List (String × SecretStore)
  secretsConfigurations : List (String × SecretsScope)

/-- Map lookup of a registered secret store (`compStore.GetSecretStore`). -/
def CompStore.getSecretStore (s : CompStore) (name : String) :
    Option SecretStore :=
  (s.secretStores.find? (fun kv => kv.1 == name)).map (fun kv => kv.2)

/-- Number of registered secret stores (`compStore.SecretStoresLen`). -/
def CompStore.secretStoresLen (s : CompStore) : Nat :=
  s.secretStores.length

/-- Map lookup of a registered secrets configuration
(`compStore.GetSecretsConfiguration`). -/
def CompStore.getSecretsConfiguration (s : CompStore) (name : String) :
    Option SecretsScope :=
  (s.secretsConfigurations.find? (fun kv => kv.1 == name)).map (fun kv => kv.2)

/-- The Universal API object, reduced to the dependencies the secrets
endpoints read. -/
structure Universal where
  compStore : CompStore

/-- `isSecretAllowed` of `secrets.go` lines 174-189, together with the events
it logs: with a configuration it evaluates `IsSecretAllowedWithReason` and
logs a denial in detail; without one it logs a debug line and allows. -/
def Universal.isSecretAllowedE (a : Universal) (storeName key : String) :
    Bool × List AuditEvent :=
  match a.compStore.getSecretsConfiguration storeName with
  | some config =>
      let ar := config.IsSecretAllowedWithReason key
      if ar.1 then
        (true, [])
      else
        (false, [.secretAccessDenied key storeName ar.2 config.defaultAccess
          config.allowedSecrets config.deniedSecrets])
  | none => (true, [.noScopingConfigDebug storeName key])

/-- The boolean decision of `isSecretAllowed`. -/
def Universal.isSecretAllowed (a : Universal) (storeName key : String) : Bool :=
  (a.isSecretAllowedE storeName key).1

/-- `secretsValidateRequest` of `secrets.go` lines 157-172: zero registered
backends fail first with `ErrSecretStoreNotConfigured`; an unknown name then
fails with `ErrSecretStoreNotFound`; both are logged at debug level. -/
def Universal.secretsValidateRequest (a : Universal) (componentName : String) :
    Except ApiError SecretStore × List AuditEvent :=
  if a.compStore.secretStoresLen = 0 then
    (.error .secretStoreNotConfigured, [.debugError .secretStoreNotConfigured])
  else
    match a.compStore.getSecretStore componentName with
    | none =>
        (.error (.secretStoreNotFound componentName),
          [.debugError (.secretStoreNotFound componentName)])
    | some component => (.ok component, [])

/-- `GetSecretRequest` (store name, key, metadata). -/
structure GetSecretRequest where
  storeName : String
  key : String
  metadata : Metadata
deriving Repr

/-- `GetSecretResponse` returned to the caller. -/
structure GetSecretResponse where
  data : SecretMap
deriving DecidableEq, Repr

/-- Outcome of `GetSecret`: the (possibly absent) response and error exactly
as returned, the emitted events in order, and the keys fetched from the
backend (empty when the single-fetch capability was never invoked). -/
structure GetSecretResult where
  response : Option GetSecretResponse
  error : Option ApiError
  events : List AuditEvent
  fetchedKeys : List String
deriving Repr

/-- `GetSecret` of `secrets.go` lines 28-81: validate the store, check the
scope (on denial log the configuration or its absence and fail with
`ErrSecretPermissionDenied` without touching the backend), otherwise fetch
through the runner, mapping a backend error to `ErrSecretGet` and a non-nil
response pointer to the caller response. -/
def Universal.GetSecret (a : Universal) (inp : GetSecretRequest) :
    GetSecretResult :=
  match a.secretsValidateRequest inp.storeName with
  | (.error e, evs) => ⟨none, some e, evs, []⟩
  | (.ok component, evs) =>
      let chk := a.isSecretAllowedE inp.storeName inp.key
      if !chk.1 then
        let e := ApiError.permissionDenied inp.key inp.storeName
        match a.compStore.getSecretsConfiguration inp.storeName with
        | some config =>
            ⟨none, some e, evs ++ chk.2 ++
              [.secretAccessDenied inp.key inp.storeName
                (config.IsSecretAllowedWithReason inp.key).2
                config.defaultAccess config.allowedSecrets
                config.deniedSecrets], []⟩
        | none =>
            ⟨none, some e, evs ++ chk.2 ++
              [.secretAccessDeniedNoConfig inp.key inp.storeName], []⟩
      else
        match component.getSecret inp.key inp.metadata with
        | (_, some msg) =>
            let e := ApiError.secretGet inp.key inp.storeName msg
            ⟨none, some e, evs ++ chk.2 ++ [.debugError e], [inp.key]⟩
        | (some g, none) =>
            ⟨some ⟨g.data⟩, none, evs ++ chk.2, [inp.key]⟩
        | (none, none) =>
            ⟨none, none, evs ++ chk.2, [inp.key]⟩

/-- `GetBulkSecretRequest` (store name, metadata). -/
structure GetBulkSecretRequest where
  storeName : String
  metadata : Metadata
deriving Repr

/-- One secret of a bulk response (`runtimev1pb.SecretResponse`). -/
structure SecretResponse where
  secrets : SecretMap
deriving DecidableEq, Repr

/-- `GetBulkSecretResponse` returned to the caller. -/
structure GetBulkSecretResponse where
  data : List (String × SecretResponse)
deriving DecidableEq, Repr

/-- Outcome of `GetBulkSecret`, with the emitted events and whether the
backend bulk-fetch was invoked. -/
structure GetBulkSecretResult where
  response : Option GetBulkSecretResponse
  error : Option ApiError
  events : List AuditEvent
  bulkFetched : Bool
deriving Repr

/-- The filtering loop of `GetBulkSecret` (`secrets.go` lines 120-132) over
the backend's key set, in iteration order: the kept entries, the denied keys,
the per-key denial reasons accumulated when a configuration exists, and the
events logged inside the loop. -/
def Universal.bulkLoop (a : Universal) (storeName : String) :
    List (String × SecretMap) →
      List (String × SecretMap) × List String × List (String × Reason) ×
        List AuditEvent
  | [] => ([], [], [], [])
  | (key, v) :: rest =>
      let prev := a.bulkLoop storeName rest
      let chk := a.isSecretAllowedE storeName key
      if chk.1 then
        ((key, v) :: prev.1, prev.2.1, prev.2.2.1, chk.2 ++ prev.2.2.2)
      else
        let reasons :=
          match a.compStore.getSecretsConfiguration storeName with
          | some config =>
              (key, (config.IsSecretAllowedWithReason key).2) :: prev.2.2.1
          | none => prev.2.2.1
        (prev.1, key :: prev.2.1, reasons,
          chk.2 ++ [.debugError (.permissionDenied key storeName)] ++
            prev.2.2.2)

/-- `GetBulkSecret` of `secrets.go` lines 83-154: validate the store, bulk
fetch through the runner (a backend error becomes `ErrBulkSecretGet`), filter
the returned keys through the scope, emit one aggregate denial event when
anything was denied (with reasons when a configuration exists, bare key names
otherwise), and build a response only when the backend's data map is
non-nil. -/
def Universal.GetBulkSecret (a : Universal) (inp : GetBulkSecretRequest) :
    GetBulkSecretResult :=
  match a.secretsValidateRequest inp.storeName with
  | (.error e, evs) => ⟨none, some e, evs, false⟩
  | (.ok component, evs) =>
      match component.bulkGetSecret inp.metadata with
      | (_, some msg) =>
          let e := ApiError.bulkSecretGet inp.storeName msg
          ⟨none, some e, evs ++ [.debugError e], true⟩
      | (none, none) => ⟨none, none, evs, true⟩
      | (some g, none) =>
          let entries := g.data.getD []
          let loop := a.bulkLoop inp.storeName entries
          let aggEvs :=
            if loop.2.1.length > 0 then
              match a.compStore.getSecretsConfiguration inp.storeName with
              | some config =>
                  [AuditEvent.bulkSomeDenied inp.storeName
                    config.defaultAccess loop.2.2.1]
              | none =>
                  [AuditEvent.bulkSomeDeniedNoConfig inp.storeName loop.2.1]
            else []
          let response : Option GetBulkSecretResponse :=
            match g.data with
            | none => none
            | some _ =>
                some ⟨loop.1.map (fun kv => (kv.1, ⟨kv.2⟩))⟩
          ⟨response, none, evs ++ loop.2.2.2 ++ aggEvs, true⟩

/-! ### Concrete instances, mirroring the fixtures of the Go unit tests -/

/-- A backend that answers every single fetch with one sub-key mapping and
whose bulk fetch returns two composite secrets, one of which the scoped
configurations below deny. -/
def fakeSecretStore : SecretStore where
  getSecret := fun key _ => (some ⟨[(key, "life is good")]⟩, none)
  bulkGetSecret := fun _ =>
    (some ⟨some [("allowed-key", [("allowed-key", "allowed value")]),
      ("denied-key", [("denied-key", "denied value")])]⟩, none)

/-- A backend whose bulk fetch returns an initialized map with zero keys. -/
def emptyMapSecretStore : SecretStore where
  getSecret := fun _ _ => (none, none)
  bulkGetSecret := fun _ => (some ⟨some []⟩, none)

/-- A backend whose bulk fetch returns a nil data map. -/
def nilMapSecretStore : SecretStore where
  getSecret := fun _ _ => (none, none)
  bulkGetSecret := fun _ => (some ⟨none⟩, none)

/-- One registered store scoped with default allow and one denied key. -/
def scopedU : Universal :=
  ⟨⟨[("test-store", fakeSecretStore)],
    [("test-store", ⟨.allow, [], ["denied-key"]⟩)]⟩⟩

/-- One registered store with no scoping configuration at all. -/
def openU : Universal := ⟨⟨[("open-store", fakeSecretStore)], []⟩⟩

/-- No registered secret stores and no configurations. -/
def emptyU : Universal := ⟨⟨[], []⟩⟩

/-- One registered store whose bulk fetch yields an initialized empty map. -/
def emptyMapU : Universal := ⟨⟨[("s", emptyMapSecretStore)], []⟩⟩

/-- One registered store whose bulk fetch yields a nil map. -/
def nilMapU : Universal := ⟨⟨[("s", nilMapSecretStore)], []⟩⟩

/-- A store scoped with default deny and an explicit allow list, as in the
Go test fixture for store3. -/
def restrictedU : Universal :=
  ⟨⟨[("store3", fakeSecretStore)],
    [("store3", ⟨.deny, ["good-key"], ["blocked-key"]⟩)]⟩⟩

/-! ### Helper lemmas -/

theorem secretsValidateRequest_cases (a : Universal) (name : String) :
    (a.compStore.secretStoresLen = 0 ∧
      a.secretsValidateRequest name =
        (.error .secretStoreNotConfigured,
          [.debugError .secretStoreNotConfigured])) ∨
    (a.compStore.secretStoresLen ≠ 0 ∧
      a.compStore.getSecretStore name = none ∧
      a.secretsValidateRequest name =
        (.error (.secretStoreNotFound name),
          [.debugError (.secretStoreNotFound name)])) ∨
    (∃ c, a.compStore.secretStoresLen ≠ 0 ∧
      a.compStore.getSecretStore name = some c ∧
      a.secretsValidateRequest name = (.ok c, [])) := by
  unfold Universal.secretsValidateRequest
  by_cases h : a.compStore.secretStoresLen = 0
  · exact Or.inl ⟨h, by simp [h]⟩
  · cases hs : a.compStore.getSecretStore name with
    | none => exact Or.inr (Or.inl ⟨h, rfl, by simp [h, hs]⟩)
    | some c => exact Or.inr (Or.inr ⟨c, h, rfl, by simp [h, hs]⟩)

theorem secretsValidateRequest_ok (a : Universal) (name : String)
    (component : SecretStore) (h0 : a.compStore.secretStoresLen ≠ 0)
    (h1 : a.compStore.getSecretStore name = some component) :
    a.secretsValidateRequest name = (.ok component, []) := by
  simp [Universal.secretsValidateRequest, h0, h1]

theorem isSecretAllowedE_of_noConfig (a : Universal) (store key : String)
    (h : a.compStore.getSecretsConfiguration store = none) :
    a.isSecretAllowedE store key = (true, [.noScopingConfigDebug store key]) := by
  simp [Universal.isSecretAllowedE, h]

theorem isSecretAllowed_eq_config (a : Universal) (store key : String)
    (c : SecretsScope)
    (h : a.compStore.getSecretsConfiguration store = some c) :
    a.isSecretAllowed store key = (c.IsSecretAllowedWithReason key).1 := by
  unfold Universal.isSecretAllowed Universal.isSecretAllowedE
  rw [h]
  cases hr : (c.IsSecretAllowedWithReason key).1 <;> simp [hr]

theorem bulkLoop_fst (a : Universal) (store : String)
    (l : List (String × SecretMap)) :
    (a.bulkLoop store l).1 =
      l.filter (fun kv => a.isSecretAllowed store kv.1) := by
  induction l with
  | nil => rfl
  | cons kv rest ih =>
      obtain ⟨k, v⟩ := kv
      unfold Universal.bulkLoop
      cases hc : a.isSecretAllowed store k <;>
        simp [Universal.isSecretAllowed] at hc <;>
        simp [hc, ih, List.filter, Universal.isSecretAllowed]

theorem bulkLoop_denied (a : Universal) (store : String)
    (l : List (String × SecretMap)) :
    (a.bulkLoop store l).2.1 =
      (l.filter (fun kv => !a.isSecretAllowed store kv.1)).map Prod.fst := by
  induction l with
  | nil => rfl
  | cons kv rest ih =>
      obtain ⟨k, v⟩ := kv
      unfold Universal.bulkLoop
      cases hc : a.isSecretAllowed store k <;>
        simp [Universal.isSecretAllowed] at hc <;>
        simp [hc, ih, List.filter, Universal.isSecretAllowed]

/-! ### Claim theorems -/

/-- C1: for every scope configuration and every key, the access decision
follows the fixed §4.1 precedence exactly: membership in `deniedSecrets`
always yields deny (overriding allow-list membership and a default-allow
policy); when `allowedSecrets` is non-empty the allow-list is exhaustive (the
key is allowed exactly when listed, independent of `defaultAccess`);
`defaultAccess` decides only when `allowedSecrets` is empty. `isSecretAllowed`
returns exactly this decision for a store with that configuration. -/
theorem isSecretAllowed_follows_precedence (a : Universal) (store key : String)
    (c : SecretsScope)
    (h : a.compStore.getSecretsConfiguration store = some c) :
    a.isSecretAllowed store key = (c.IsSecretAllowedWithReason key).1 ∧
    (c.deniedSecrets.contains key = true →
      c.IsSecretAllowedWithReason key = (false, .deniedListMatch)) ∧
    (c.deniedSecrets.contains key = false → c.allowedSecrets ≠ [] →
      c.IsSecretAllowedWithReason key =
        if c.allowedSecrets.contains key then (true, .allowedListMatch)
        else (false, .notInAllowedList)) ∧
    (c.deniedSecrets.contains key = false → c.allowedSecrets = [] →
      c.IsSecretAllowedWithReason key =
        match c.defaultAccess with
        | .allow => (true, .defaultAllow)
        | .deny => (false, .defaultDeny)) := by
  refine ⟨isSecretAllowed_eq_config a store key c h, ?_, ?_, ?_⟩
  · intro hd
    have hd' : key ∈ c.deniedSecrets := by simpa using hd
    simp [SecretsScope.IsSecretAllowedWithReason, hd']
  · intro hd hne
    have hd' : key ∉ c.deniedSecrets := by simpa using hd
    simp [SecretsScope.IsSecretAllowedWithReason, hd', hne]
  · intro hd he
    have hd' : key ∉ c.deniedSecrets := by simpa using hd
    simp [SecretsScope.IsSecretAllowedWithReason, hd', he]
    cases c.defaultAccess <;> rfl

/-- Closed instance of `isSecretAllowed_follows_precedence` at the scoped
store fixture and its denied key. -/
theorem isSecretAllowed_follows_precedence_witness :
    scopedU.isSecretAllowed "test-store" "denied-key" = false := by
  have h := isSecretAllowed_follows_precedence scopedU "test-store"
    "denied-key" ⟨.allow, [], ["denied-key"]⟩ rfl
  rw [h.1, h.2.1 (by decide)]

/-- C4: store resolution fails with `ErrSecretStoreNotConfigured` whenever
zero backends are registered, regardless of name and key, and with
`ErrSecretStoreNotFound storeName` whenever backends exist but none matches;
the zero-backends check takes precedence, and both `GetSecret` and
`GetBulkSecret` surface exactly these errors. -/
theorem secretsValidateRequest_error_precedence (a : Universal)
    (name key : String) (md : Metadata) :
    (a.compStore.secretStoresLen = 0 →
      (a.secretsValidateRequest name).1 = .error .secretStoreNotConfigured ∧
      (a.GetSecret ⟨name, key, md⟩).error = some .secretStoreNotConfigured ∧
      (a.GetBulkSecret ⟨name, md⟩).error = some .secretStoreNotConfigured) ∧
    (a.compStore.secretStoresLen ≠ 0 →
      a.compStore.getSecretStore name = none →
      (a.secretsValidateRequest name).1 = .error (.secretStoreNotFound name) ∧
      (a.GetSecret ⟨name, key, md⟩).error = some (.secretStoreNotFound name) ∧
      (a.GetBulkSecret ⟨name, md⟩).error =
        some (.secretStoreNotFound name)) := by
  constructor
  · intro h
    have hv : a.secretsValidateRequest name =
        (.error .secretStoreNotConfigured,
          [.debugError .secretStoreNotConfigured]) := by
      simp [Universal.secretsValidateRequest, h]
    exact ⟨by rw [hv], by simp [Universal.GetSecret, hv],
      by simp [Universal.GetBulkSecret, hv]⟩
  · intro h h'
    have hv : a.secretsValidateRequest name =
        (.error (.secretStoreNotFound name),
          [.debugError (.secretStoreNotFound name)]) := by
      simp [Universal.secretsValidateRequest, h, h']
    exact ⟨by rw [hv], by simp [Universal.GetSecret, hv],
      by simp [Universal.GetBulkSecret, hv]⟩

/-- Closed instance of `secretsValidateRequest_error_precedence`: the empty
registry yields `ErrSecretStoreNotConfigured`, a populated registry with an
unknown name yields `ErrSecretStoreNotFound`. -/
theorem secretsValidateRequest_error_precedence_witness :
    (emptyU.GetSecret ⟨"s", "k", []⟩).error =
      some .secretStoreNotConfigured ∧
    (openU.GetBulkSecret ⟨"missing", []⟩).error =
      some (.secretStoreNotFound "missing") :=
  ⟨((secretsValidateRequest_error_precedence emptyU "s" "k" []).1 rfl).2.1,
   ((secretsValidateRequest_error_precedence openU "missing" "k" []).2
      (by decide) rfl).2.2⟩

/-- C5: when no scope configuration is registered for the store, the
evaluator allows every key with reason `NoConfiguration`, `isSecretAllowed`
returns true, `GetSecret` on that store never fails with
`ErrSecretPermissionDenied`, and bulk filtering keeps every entry and denies
none. -/
theorem noConfiguration_allows (a : Universal) (store key : String)
    (h : a.compStore.getSecretsConfiguration store = none) :
    evaluate (a.compStore.getSecretsConfiguration store) key =
      (true, .noConfiguration) ∧
    a.isSecretAllowed store key = true ∧
    (∀ inp : GetSecretRequest, inp.storeName = store →
      ∀ k s, (a.GetSecret inp).error ≠ some (.permissionDenied k s)) ∧
    (∀ entries, (a.bulkLoop store entries).1 = entries ∧
      (a.bulkLoop store entries).2.1 = []) := by
  refine ⟨by simp [evaluate, h], ?_, ?_, ?_⟩
  · simp [Universal.isSecretAllowed, isSecretAllowedE_of_noConfig a store key h]
  · intro inp hs k s
    subst hs
    rcases secretsValidateRequest_cases a inp.storeName with
      ⟨h0, hv⟩ | ⟨h0, h1, hv⟩ | ⟨c, h0, h1, hv⟩
    · simp [Universal.GetSecret, hv]
    · simp [Universal.GetSecret, hv]
    · have hA := isSecretAllowedE_of_noConfig a inp.storeName inp.key h
      rcases hg : c.getSecret inp.key inp.metadata with ⟨ro, eo⟩
      cases eo <;> cases ro <;>
        simp [Universal.GetSecret, hv, hA, hg]
  · intro entries
    constructor
    · rw [bulkLoop_fst]
      apply List.filter_eq_self.mpr
      intro kv _
      simp [Universal.isSecretAllowed,
        isSecretAllowedE_of_noConfig a store kv.1 h]
    · rw [bulkLoop_denied]
      have : entries.filter (fun kv => !a.isSecretAllowed store kv.1) = [] := by
        apply List.filter_eq_nil_iff.mpr
        intro kv _
        simp [Universal.isSecretAllowed,
          isSecretAllowedE_of_noConfig a store kv.1 h]
      rw [this]
      rfl

/-- Closed instance of `noConfiguration_allows` at the unscoped store
fixture. -/
theorem noConfiguration_allows_witness :
    openU.isSecretAllowed "open-store" "any-key" = true ∧
    (openU.GetSecret ⟨"open-store", "any-key", []⟩).error ≠
      some (.permissionDenied "any-key" "open-store") := by
  have h := noConfiguration_allows openU "open-store" "any-key" rfl
  exact ⟨h.2.1, h.2.2.1 ⟨"open-store", "any-key", []⟩ rfl "any-key" "open-store"⟩

/-- C2: on a successful backend bulk result, the response data is exactly the
allowed partition of the backend's key set: it equals the filter of the
entries through the access decision (sub-key mappings included verbatim),
every denied key is absent from the response even though the backend returned
a value for it, and every allowed key is present with its mapping. -/
theorem GetBulkSecret_filters_exactly (a : Universal)
    (inp : GetBulkSecretRequest) (component : SecretStore)
    (g : GoBulkGetSecretResponse) (entries : List (String × SecretMap))
    (h0 : a.compStore.secretStoresLen ≠ 0)
    (h1 : a.compStore.getSecretStore inp.storeName = some component)
    (h2 : component.bulkGetSecret inp.metadata = (some g, none))
    (h3 : g.data = some entries) :
    (a.GetBulkSecret inp).response =
      some ⟨(entries.filter
          (fun kv => a.isSecretAllowed inp.storeName kv.1)).map
        (fun kv => (kv.1, ⟨kv.2⟩))⟩ ∧
    (∀ kv ∈ entries, a.isSecretAllowed inp.storeName kv.1 = false →
      ∀ w r, (a.GetBulkSecret inp).response = some r → (kv.1, w) ∉ r.data) ∧
    (∀ kv ∈ entries, a.isSecretAllowed inp.storeName kv.1 = true →
      ∀ r, (a.GetBulkSecret inp).response = some r →
        (kv.1, (⟨kv.2⟩ : SecretResponse)) ∈ r.data) := by
  have hv := secretsValidateRequest_ok a inp.storeName component h0 h1
  have hresp : (a.GetBulkSecret inp).response =
      some ⟨(entries.filter
          (fun kv => a.isSecretAllowed inp.storeName kv.1)).map
        (fun kv => (kv.1, ⟨kv.2⟩))⟩ := by
    simp [Universal.GetBulkSecret, hv, h2, h3, bulkLoop_fst]
  refine ⟨hresp, ?_, ?_⟩
  · intro kv _ hden w r hr hmem
    rw [hresp] at hr
    cases hr
    simp only [List.mem_map, List.mem_filter] at hmem
    obtain ⟨kv', ⟨_, hall⟩, heq⟩ := hmem
    simp only [Prod.mk.injEq] at heq
    obtain ⟨h1, -⟩ := heq
    rw [h1, hden] at hall
    exact Bool.false_ne_true hall
  · intro kv hmem hall r hr
    rw [hresp] at hr
    cases hr
    simp only [List.mem_map, List.mem_filter]
    exact ⟨kv, ⟨hmem, hall⟩, rfl⟩

/-- Closed instance of `GetBulkSecret_filters_exactly` at the scoped fixture:
the backend returns two keys, the denied one is filtered out and the allowed
one kept verbatim. -/
theorem GetBulkSecret_filters_exactly_witness :
    (scopedU.GetBulkSecret ⟨"test-store", []⟩).response =
      some ⟨[("allowed-key", ⟨[("allowed-key", "allowed value")]⟩)]⟩ := by
  have h := (GetBulkSecret_filters_exactly scopedU ⟨"test-store", []⟩
    fakeSecretStore
    ⟨some [("allowed-key", [("allowed-key", "allowed value")]),
      ("denied-key", [("denied-key", "denied value")])]⟩
    [("allowed-key", [("allowed-key", "allowed value")]),
      ("denied-key", [("denied-key", "denied value")])]
    (by decide) rfl rfl rfl).1
  rw [h]
  rfl

/-- C3: when the store resolves but the key is denied, `GetSecret` fails with
`ErrSecretPermissionDenied key storeName`, returns no data, never invokes the
backend single-fetch, and emits the denial audit events carrying the reason
and the full scope configuration when one exists (or the no-configuration
event otherwise); the emitted event list is given exactly, so no secret value
appears in it. -/
theorem GetSecret_denied (a : Universal) (inp : GetSecretRequest)
    (component : SecretStore)
    (h0 : a.compStore.secretStoresLen ≠ 0)
    (h1 : a.compStore.getSecretStore inp.storeName = some component)
    (hden : a.isSecretAllowed inp.storeName inp.key = false) :
    (a.GetSecret inp).error =
      some (.permissionDenied inp.key inp.storeName) ∧
    (a.GetSecret inp).response = none ∧
    (a.GetSecret inp).fetchedKeys = [] ∧
    (∀ c, a.compStore.getSecretsConfiguration inp.storeName = some c →
      (a.GetSecret inp).events =
        [.secretAccessDenied inp.key inp.storeName
            (c.IsSecretAllowedWithReason inp.key).2 c.defaultAccess
            c.allowedSecrets c.deniedSecrets,
         .secretAccessDenied inp.key inp.storeName
            (c.IsSecretAllowedWithReason inp.key).2 c.defaultAccess
            c.allowedSecrets c.deniedSecrets]) ∧
    (a.compStore.getSecretsConfiguration inp.storeName = none →
      (a.GetSecret inp).events =
        [.secretAccessDeniedNoConfig inp.key inp.storeName]) := by
  have hv := secretsValidateRequest_ok a inp.storeName component h0 h1
  cases hc : a.compStore.getSecretsConfiguration inp.storeName with
  | none =>
      exfalso
      have hE := isSecretAllowedE_of_noConfig a inp.storeName inp.key hc
      have htrue : a.isSecretAllowed inp.storeName inp.key = true := by
        simp [Universal.isSecretAllowed, hE]
      rw [htrue] at hden
      exact Bool.noConfusion hden
  | some c =>
      have hb : (c.IsSecretAllowedWithReason inp.key).1 = false := by
        rw [← isSecretAllowed_eq_config a inp.storeName inp.key c hc]
        exact hden
      refine ⟨?_, ?_, ?_, ?_, ?_⟩
      · simp [Universal.GetSecret, hv, Universal.isSecretAllowedE, hc, hb]
      · simp [Universal.GetSecret, hv, Universal.isSecretAllowedE, hc, hb]
      · simp [Universal.GetSecret, hv, Universal.isSecretAllowedE, hc, hb]
      · intro c' hc'
        have hcc : c = c' := Option.some.inj hc'
        subst hcc
        simp [Universal.GetSecret, hv, Universal.isSecretAllowedE, hc, hb]
      · intro hc'
        exact Option.noConfusion hc'

/-- Closed instance of `GetSecret_denied` at the scoped fixture's denied
key: permission denied, no fetch, and exactly the two denial audit events. -/
theorem GetSecret_denied_witness :
    (scopedU.GetSecret ⟨"test-store", "denied-key", []⟩).error =
      some (.permissionDenied "denied-key" "test-store") ∧
    (scopedU.GetSecret ⟨"test-store", "denied-key", []⟩).fetchedKeys = [] ∧
    (scopedU.GetSecret ⟨"test-store", "denied-key", []⟩).events =
      [.secretAccessDenied "denied-key" "test-store" .deniedListMatch
        .allow [] ["denied-key"],
       .secretAccessDenied "denied-key" "test-store" .deniedListMatch
        .allow [] ["denied-key"]] := by
  have h := GetSecret_denied scopedU ⟨"test-store", "denied-key", []⟩
    fakeSecretStore (by decide) rfl (by decide)
  refine ⟨h.1, h.2.2.1, ?_⟩
  rw [h.2.2.2.1 ⟨.allow, [], ["denied-key"]⟩ rfl]
  rfl

theorem bulkLoop_denied_nil_of_noConfig (a : Universal) (store : String)
    (h : a.compStore.getSecretsConfiguration store = none)
    (entries : List (String × SecretMap)) :
    (a.bulkLoop store entries).2.1 = [] := by
  rw [bulkLoop_denied]
  have hf : entries.filter (fun kv => !a.isSecretAllowed store kv.1) = [] := by
    apply List.filter_eq_nil_iff.mpr
    intro kv _
    simp [Universal.isSecretAllowed, isSecretAllowedE_of_noConfig a store kv.1 h]
  rw [hf]
  rfl

theorem isSecretAllowedE_events_shape (a : Universal) (store key : String) :
    (a.isSecretAllowedE store key).2 = [] ∨
    (∃ r d al dl, (a.isSecretAllowedE store key).2 =
      [.secretAccessDenied key store r d al dl]) ∨
    (a.isSecretAllowedE store key).2 = [.noScopingConfigDebug store key] := by
  unfold Universal.isSecretAllowedE
  cases hc : a.compStore.getSecretsConfiguration store with
  | none => exact Or.inr (Or.inr rfl)
  | some c =>
      cases hr : (c.IsSecretAllowedWithReason key).1 with
      | true => exact Or.inl (by simp [hr])
      | false =>
          exact Or.inr (Or.inl ⟨(c.IsSecretAllowedWithReason key).2,
            c.defaultAccess, c.allowedSecrets, c.deniedSecrets, by simp [hr]⟩)

theorem bulkLoop_events_no_aggregate (a : Universal) (store : String)
    (l : List (String × SecretMap)) (s : String) (keys : List String) :
    AuditEvent.bulkSomeDeniedNoConfig s keys ∉ (a.bulkLoop store l).2.2.2 := by
  induction l with
  | nil => simp [Universal.bulkLoop]
  | cons kv rest ih =>
      obtain ⟨k, v⟩ := kv
      have hshape := isSecretAllowedE_events_shape a store k
      unfold Universal.bulkLoop
      cases hb : (a.isSecretAllowedE store k).1 <;>
        rcases hshape with he | ⟨r, d, al, dl, he⟩ | he <;>
          simp [hb, he, ih]

/-- C6 counterexample: a backend bulk call that succeeds with an initialized
data map holding zero keys produces a present (empty) response, not the
absent response the claim requires for a backend result with no keys. -/
theorem GetBulkSecret_emptyMap_counterexample :
    emptyMapSecretStore.bulkGetSecret [] =
      (some ⟨some []⟩, none) ∧
    (emptyMapU.GetBulkSecret ⟨"s", []⟩).error = none ∧
    (emptyMapU.GetBulkSecret ⟨"s", []⟩).response = some ⟨[]⟩ ∧
    (emptyMapU.GetBulkSecret ⟨"s", []⟩).response ≠ none := by
  refine ⟨rfl, rfl, rfl, ?_⟩
  intro h
  have hr : (emptyMapU.GetBulkSecret ⟨"s", []⟩).response = some ⟨[]⟩ := rfl
  rw [hr] at h
  exact Option.noConfusion h

/-- C6 (amended): on a successful backend bulk call the response is present
exactly when the backend's data map is non-nil: a non-nil map in which every
key is denied — including one with zero keys — yields an empty, non-absent
response, while a nil data map (or an absent runner response) yields an
absent response. -/
theorem GetBulkSecret_empty_vs_absent (a : Universal)
    (inp : GetBulkSecretRequest) (component : SecretStore)
    (h0 : a.compStore.secretStoresLen ≠ 0)
    (h1 : a.compStore.getSecretStore inp.storeName = some component) :
    (∀ g entries, component.bulkGetSecret inp.metadata = (some g, none) →
      g.data = some entries →
      (∀ kv ∈ entries, a.isSecretAllowed inp.storeName kv.1 = false) →
      (a.GetBulkSecret inp).response = some ⟨[]⟩) ∧
    (∀ g, component.bulkGetSecret inp.metadata = (some g, none) →
      g.data = none → (a.GetBulkSecret inp).response = none) ∧
    (component.bulkGetSecret inp.metadata = (none, none) →
      (a.GetBulkSecret inp).response = none) := by
  have hv := secretsValidateRequest_ok a inp.storeName component h0 h1
  refine ⟨?_, ?_, ?_⟩
  · intro g entries h2 h3 hden
    have hf : entries.filter (fun kv => a.isSecretAllowed inp.storeName kv.1)
        = [] := by
      apply List.filter_eq_nil_iff.mpr
      intro kv hkv
      simp [hden kv hkv]
    simp [Universal.GetBulkSecret, hv, h2, h3, bulkLoop_fst, hf]
  · intro g h2 h3
    simp [Universal.GetBulkSecret, hv, h2, h3]
  · intro h2
    simp [Universal.GetBulkSecret, hv, h2]

/-- Closed instance of `GetBulkSecret_empty_vs_absent`: an initialized empty
backend map yields the empty present response, a nil map yields the absent
one. -/
theorem GetBulkSecret_empty_vs_absent_witness :
    (emptyMapU.GetBulkSecret ⟨"s", []⟩).response = some ⟨[]⟩ ∧
    (nilMapU.GetBulkSecret ⟨"s", []⟩).response = none := by
  refine ⟨(GetBulkSecret_empty_vs_absent emptyMapU ⟨"s", []⟩
      emptyMapSecretStore (by decide) rfl).1 ⟨some []⟩ [] rfl rfl ?_,
    (GetBulkSecret_empty_vs_absent nilMapU ⟨"s", []⟩
      nilMapSecretStore (by decide) rfl).2.1 ⟨none⟩ rfl rfl⟩
  intro kv hkv
  simp at hkv

/-- C7: with no scope configuration registered for the store, the denied set
of bulk filtering is empty; consequently the aggregate bulk-denial audit
event that names keys without reasons (the no-configuration fallback) is
never emitted by `GetBulkSecret`, on any input whatsoever. -/
theorem bulk_noConfig_denial_unreachable (a : Universal) (store : String)
    (inp : GetBulkSecretRequest) (entries : List (String × SecretMap)) :
    (a.compStore.getSecretsConfiguration store = none →
      (a.bulkLoop store entries).2.1 = []) ∧
    (∀ s keys,
      AuditEvent.bulkSomeDeniedNoConfig s keys ∉ (a.GetBulkSecret inp).events)
    := by
  constructor
  · intro h
    exact bulkLoop_denied_nil_of_noConfig a store h entries
  · intro s keys
    rcases secretsValidateRequest_cases a inp.storeName with
      ⟨h0, hv⟩ | ⟨h0, h1, hv⟩ | ⟨c, h0, h1, hv⟩
    · simp [Universal.GetBulkSecret, hv]
    · simp [Universal.GetBulkSecret, hv]
    · rcases hbg : c.bulkGetSecret inp.metadata with ⟨ro, eo⟩
      cases eo with
      | some msg => simp [Universal.GetBulkSecret, hv, hbg]
      | none =>
          cases ro with
          | none => simp [Universal.GetBulkSecret, hv, hbg]
          | some g =>
              cases hcfg : a.compStore.getSecretsConfiguration inp.storeName
                with
              | some cfg =>
                  by_cases hlen :
                      (a.bulkLoop inp.storeName (g.data.getD [])).2.1.length
                        > 0 <;>
                    simp [Universal.GetBulkSecret, hv, hbg, hcfg, hlen,
                      bulkLoop_events_no_aggregate]
              | none =>
                  have hnil := bulkLoop_denied_nil_of_noConfig a inp.storeName
                    hcfg (g.data.getD [])
                  simp [Universal.GetBulkSecret, hv, hbg, hcfg, hnil,
                    bulkLoop_events_no_aggregate]

/-- Closed instance of `bulk_noConfig_denial_unreachable` at the unscoped
fixture: no denied keys, and the fallback aggregate event is absent from a
run of `GetBulkSecret`. -/
theorem bulk_noConfig_denial_unreachable_witness :
    (openU.bulkLoop "open-store"
      [("allowed-key", [("allowed-key", "allowed value")])]).2.1 = [] ∧
    AuditEvent.bulkSomeDeniedNoConfig "open-store" [] ∉
      (openU.GetBulkSecret ⟨"open-store", []⟩).events := by
  have h := bulk_noConfig_denial_unreachable openU "open-store"
    ⟨"open-store", []⟩ [("allowed-key", [("allowed-key", "allowed value")])]
  exact ⟨h.1 rfl, h.2 "open-store" []⟩

/-- C8: bulk filtering is a deterministic function of the scope configuration
and the backend's key set: two `Universal` instances with the same registered
configuration for the store produce identical loop results; permuting the
backend's key set permutes the allowed and denied partitions accordingly; and
re-filtering the allowed partition keeps everything and denies nothing. -/
theorem bulk_filter_det_order_independent (a b : Universal) (store : String)
    (l l' : List (String × SecretMap)) :
    (a.compStore.getSecretsConfiguration store =
        b.compStore.getSecretsConfiguration store →
      a.bulkLoop store l = b.bulkLoop store l) ∧
    (l.Perm l' →
      ((a.bulkLoop store l).1.Perm ((a.bulkLoop store l').1) ∧
       (a.bulkLoop store l).2.1.Perm ((a.bulkLoop store l').2.1))) ∧
    ((a.bulkLoop store ((a.bulkLoop store l).1)).1 =
        (a.bulkLoop store l).1 ∧
     (a.bulkLoop store ((a.bulkLoop store l).1)).2.1 = []) := by
  refine ⟨?_, ?_, ?_, ?_⟩
  · intro h
    have hE : ∀ key, a.isSecretAllowedE store key = b.isSecretAllowedE store key := by
      intro key
      unfold Universal.isSecretAllowedE
      rw [h]
    induction l with
    | nil => rfl
    | cons kv rest ih =>
        obtain ⟨k, v⟩ := kv
        unfold Universal.bulkLoop
        rw [ih, hE k, h]
  · intro hp
    rw [bulkLoop_fst, bulkLoop_fst, bulkLoop_denied, bulkLoop_denied]
    exact ⟨hp.filter _, (hp.filter _).map _⟩
  · rw [bulkLoop_fst, bulkLoop_fst, List.filter_filter]
    simp
  · rw [bulkLoop_fst, bulkLoop_denied, List.filter_filter]
    simp

/-- Closed instance of `bulk_filter_det_order_independent`: swapping the two
backend keys permutes the allowed partition of the scoped fixture. -/
theorem bulk_filter_det_order_independent_witness :
    (scopedU.bulkLoop "test-store"
      [("allowed-key", []), ("denied-key", [])]).1.Perm
    ((scopedU.bulkLoop "test-store"
      [("denied-key", []), ("allowed-key", [])]).1) :=
  ((bulk_filter_det_order_independent scopedU scopedU "test-store"
      [("allowed-key", []), ("denied-key", [])]
      [("denied-key", []), ("allowed-key", [])]).2.1
    (List.Perm.swap ("denied-key", []) ("allowed-key", []) [])).1

/-- C9: `GetBulkSecret` never fails with a permission-denied error: its error
is always absent, one of the two store-resolution errors, or the bulk fetch
error for its store; denial only filters keys out of the response. -/
theorem GetBulkSecret_never_permissionDenied (a : Universal)
    (inp : GetBulkSecretRequest) :
    ((a.GetBulkSecret inp).error = none ∨
     (a.GetBulkSecret inp).error = some .secretStoreNotConfigured ∨
     (a.GetBulkSecret inp).error = some (.secretStoreNotFound inp.storeName) ∨
     ∃ msg, (a.GetBulkSecret inp).error =
       some (.bulkSecretGet inp.storeName msg)) ∧
    (∀ k s, (a.GetBulkSecret inp).error ≠ some (.permissionDenied k s)) := by
  have hcases :
      (a.GetBulkSecret inp).error = none ∨
      (a.GetBulkSecret inp).error = some .secretStoreNotConfigured ∨
      (a.GetBulkSecret inp).error = some (.secretStoreNotFound inp.storeName) ∨
      ∃ msg, (a.GetBulkSecret inp).error =
        some (.bulkSecretGet inp.storeName msg) := by
    rcases secretsValidateRequest_cases a inp.storeName with
      ⟨h0, hv⟩ | ⟨h0, h1, hv⟩ | ⟨c, h0, h1, hv⟩
    · exact Or.inr (Or.inl (by simp [Universal.GetBulkSecret, hv]))
    · exact Or.inr (Or.inr (Or.inl (by simp [Universal.GetBulkSecret, hv])))
    · rcases hbg : c.bulkGetSecret inp.metadata with ⟨ro, eo⟩
      cases eo with
      | some msg =>
          exact Or.inr (Or.inr (Or.inr ⟨msg,
            by simp [Universal.GetBulkSecret, hv, hbg]⟩))
      | none =>
          cases ro with
          | none => exact Or.inl (by simp [Universal.GetBulkSecret, hv, hbg])
          | some g => exact Or.inl (by simp [Universal.GetBulkSecret, hv, hbg])
  refine ⟨hcases, ?_⟩
  intro k s
  rcases hcases with h | h | h | ⟨msg, h⟩ <;> rw [h] <;> simp

/-- C10: whenever `GetSecret` or `GetBulkSecret` returns an error, the
returned response is absent — no partial secret data ever accompanies an
error, for any registry, scope, backend outcome or request. -/
theorem gateway_error_means_no_data (a : Universal) (inp : GetSecretRequest)
    (binp : GetBulkSecretRequest) :
    ((a.GetSecret inp).error.isSome → (a.GetSecret inp).response = none) ∧
    ((a.GetBulkSecret binp).error.isSome →
      (a.GetBulkSecret binp).response = none) := by
  constructor
  · rcases secretsValidateRequest_cases a inp.storeName with
      ⟨h0, hv⟩ | ⟨h0, h1, hv⟩ | ⟨c, h0, h1, hv⟩
    · intro
      simp [Universal.GetSecret, hv]
    · intro
      simp [Universal.GetSecret, hv]
    · cases hb : (a.isSecretAllowedE inp.storeName inp.key).1 with
      | false =>
          cases hcfg : a.compStore.getSecretsConfiguration inp.storeName <;>
            · intro
              simp [Universal.GetSecret, hv, hb, hcfg]
      | true =>
          rcases hg : c.getSecret inp.key inp.metadata with ⟨ro, eo⟩
          cases eo with
          | some msg =>
              intro
              simp [Universal.GetSecret, hv, hb, hg]
          | none =>
              cases ro with
              | none =>
                  intro
                  simp [Universal.GetSecret, hv, hb, hg]
              | some g =>
                  intro hcontra
                  rw [show (a.GetSecret inp).error = none by
                    simp [Universal.GetSecret, hv, hb, hg]] at hcontra
                  simp at hcontra
  · rcases secretsValidateRequest_cases a binp.storeName with
      ⟨h0, hv⟩ | ⟨h0, h1, hv⟩ | ⟨c, h0, h1, hv⟩
    · intro
      simp [Universal.GetBulkSecret, hv]
    · intro
      simp [Universal.GetBulkSecret, hv]
    · rcases hbg : c.bulkGetSecret binp.metadata with ⟨ro, eo⟩
      cases eo with
      | some msg =>
          intro
          simp [Universal.GetBulkSecret, hv, hbg]
      | none =>
          cases ro with
          | none =>
              intro
              simp [Universal.GetBulkSecret, hv, hbg]
          | some g =>
              intro hcontra
              rw [show (a.GetBulkSecret binp).error = none by
                simp [Universal.GetBulkSecret, hv, hbg]] at hcontra
              simp at hcontra

/-- Closed instance of `gateway_error_means_no_data` at the empty registry,
where both gateways fail. -/
theorem gateway_error_means_no_data_witness :
    (emptyU.GetSecret ⟨"s", "k", []⟩).response = none ∧
    (emptyU.GetBulkSecret ⟨"s", []⟩).response = none := by
  have h := gateway_error_means_no_data emptyU ⟨"s", "k", []⟩ ⟨"s", []⟩
  exact ⟨h.1 (by decide), h.2 (by decide)⟩
